import Mathlib

/-!
Verification of the detection-model base contract in
paddle3d/models/base/base_detection.py (class BaseDetectionModel).

The Python class is embedded shallowly:
  * an input/output tensor description dict becomes the structure TensorDesc;
  * paddle.static.InputSpec becomes the structure InputSpec
    (fields shape, dtype, name, matching the constructor keywords);
  * a Python dict with String keys becomes an association list PyDict with
    Python insertion semantics: inserting an existing key replaces its value
    in place, inserting a fresh key appends;
  * the paddle nn.Layer module tree becomes the inductive Layer, a node
    carrying the mutable flag in_export_mode and the list of sublayers;
    layer.sublayers(include_self=True) enumerates every node of that tree,
    so mutating in_export_mode over that enumeration is the recursive map
    setExportMode, and the multiset of flags of all nodes is flags;
  * a model object becomes the structure Model: its constructor attributes
    (box_with_velocity), its runtime flags (training from nn.Layer, the
    in_export_mode tree), the subclass-supplied abstract members
    (inputs, sensor, test_forward, train_forward, export_forward) as fields,
    and the class name used by save_name;
  * the two external exporter calls inside export (paddle.jit.to_static and
    paddle.jit.save) are recorded as a trace of their arguments, structure
    ExportCalls, since their effect is outside this contract;
  * contextlib.contextmanager semantics for the exporting() generator: the
    code after the bare yield runs only when the body completes normally;
    when the body raises, the exception is rethrown at the yield point and,
    there being no try/finally around the yield, the code after it is
    skipped. A body is therefore a state transformer returning an
    Except outcome together with the module state it leaves behind.
-/

/-- Description of one tensor, the dict shape used by the inputs and outputs
members of the Python class: keys name, dtype, shape. Shapes are lists of
machine ints where -1 marks a dynamic dimension. -/
structure TensorDesc where
  name : String
  dtype : String
  shape : List Int
deriving DecidableEq, Repr

/-- Embedding of paddle.static.InputSpec viewed as a record of its
constructor keywords: InputSpec(shape=..., dtype=..., name=...), where name
is optional (None by default). -/
structure InputSpec where
  shape : List Int
  dtype : String
  name : Option String
deriving DecidableEq, Repr

/-- InputSpec(**_input) for an entry of inputs: all three dict fields are
passed as keywords, so the produced spec carries the entry name. -/
def mkInputSpec (e : TensorDesc) : InputSpec :=
  { shape := e.shape, dtype := e.dtype, name := some e.name }

/-- A Python dict with String keys, as an ordered association list. -/
abbrev PyDict := List (String × InputSpec)

/-- Python dict insertion d[k] = v: when k is already a key its value is
replaced in place, otherwise the binding is appended at the end. The dict
comprehension in input_spec performs one such insertion per entry of
inputs. -/
def dinsert (d : PyDict) (k : String) (v : InputSpec) : PyDict :=
  match d with
  | [] => [(k, v)]
  | (k', v') :: rest => if k' = k then (k, v) :: rest else (k', v') :: dinsert rest k v

/-- Python dict lookup d[k]. -/
def dlookup (k : String) (d : PyDict) : Option InputSpec :=
  match d with
  | [] => none
  | (k', v) :: rest => if k' = k then some v else dlookup k rest

/-- Keys of a dict, in order. -/
def dkeys (d : PyDict) : List String :=
  d.map Prod.fst

/-- Dict built by the comprehension in input_spec:
data = \x7b _input['name']: InputSpec(**_input) for _input in self.inputs \x7d. -/
def inputSpecData (es : List TensorDesc) : PyDict :=
  es.foldl (fun d e => dinsert d e.name (mkInputSpec e)) []

/-- Last entry of es whose name is n, if any: the entry whose descriptor the
comprehension retains when names collide. -/
def lastInputNamed (n : String) (es : List TensorDesc) : Option TensorDesc :=
  es.foldl (fun a e => if e.name = n then some e else a) none

mutual
/-- Embedding of the paddle nn.Layer module tree: each node carries its
in_export_mode flag and its sublayers. -/
inductive Layer where
  | node : Bool → LayerList → Layer
/-- List of sublayers of a module. -/
inductive LayerList where
  | nil : LayerList
  | cons : Layer → LayerList → LayerList
end

mutual
/-- set_export_mode(mode): for sublayer in self.sublayers(include_self=True):
sublayer.in_export_mode = mode. Sets the flag on this node and on every
descendant. -/
def setExportMode : Layer → Bool → Layer
  | Layer.node _ subs, mode => Layer.node mode (setExportModeList subs mode)
/-- Pointwise setExportMode over a list of sublayers. -/
def setExportModeList : LayerList → Bool → LayerList
  | LayerList.nil, _ => LayerList.nil
  | LayerList.cons m ms, mode => LayerList.cons (setExportMode m mode) (setExportModeList ms mode)
end

mutual
/-- Flags in_export_mode of all nodes of the tree, in preorder: the image of
self.sublayers(include_self=True) under the flag attribute. -/
def flags : Layer → List Bool
  | Layer.node b subs => b :: flagsList subs
/-- Flags of all nodes below a list of sublayers. -/
def flagsList : LayerList → List Bool
  | LayerList.nil => []
  | LayerList.cons m ms => flags m ++ flagsList ms
end

/-- Flag of the root node, which is the model object itself:
self.in_export_mode. -/
def rootFlag : Layer → Bool
  | Layer.node b _ => b

/-- The three computation paths forward can dispatch to. -/
inductive FwdPath where
  | exportPath
  | trainPath
  | testPath
deriving DecidableEq, Repr

/-- FwdPath selected by the if/elif chain of forward as a function of the pair
(in_export_mode, training). -/
def forwardPath (in_export_mode training : Bool) : FwdPath :=
  if in_export_mode then FwdPath.exportPath
  else if training then FwdPath.trainPath
  else FwdPath.testPath

/-- Embedding of a BaseDetectionModel instance. The three abstract forward
computations supplied by the concrete subclass are fields of type α → β
(samples to output); inputs and sensor are the other abstract members;
className is the concrete class name feeding save_name; training is the
nn.Layer runtime flag; tree is the module tree rooted at the model itself,
each node holding its in_export_mode flag. -/
structure Model (α β : Type) where
  className : String
  box_with_velocity : Bool
  training : Bool
  tree : Layer
  inputs : List TensorDesc
  sensor : String
  test_forward : α → β
  train_forward : α → β
  export_forward : α → β

namespace Model

variable {α β : Type}

/-- self.in_export_mode of the model object: the flag on the root node. -/
def in_export_mode (m : Model α β) : Bool :=
  rootFlag m.tree

/-- Property input_spec: data = \x7b name: InputSpec(**_input) ... \x7d
returned as [data], a single-element sequence. Pure: it reads only
self.inputs. -/
def input_spec (m : Model α β) : List PyDict :=
  [inputSpecData m.inputs]

/-- Property outputs: the three fixed output descriptors, with the box
dimension derived from box_with_velocity exactly as in the source:
boxdim = 7 if not self.box_with_velocity else 9. -/
def outputs (m : Model α β) : List TensorDesc :=
  let boxdim : Int := if !m.box_with_velocity then 7 else 9
  let box3ds : TensorDesc := { name := "box3d", dtype := "float32", shape := [-1, boxdim] }
  let labels : TensorDesc := { name := "label", dtype := "int32", shape := [-1] }
  let confidences : TensorDesc := { name := "confidence", dtype := "float32", shape := [-1] }
  [box3ds, labels, confidences]

/-- forward(samples): if self.in_export_mode: return self.export_forward(s);
elif self.training: return self.train_forward(s); return self.test_forward(s). -/
def forward (m : Model α β) (samples : α) : β :=
  if m.in_export_mode then m.export_forward samples
  else if m.training then m.train_forward samples
  else m.test_forward samples

/-- set_export_mode on the model: updates the whole module tree. -/
def set_export_mode (m : Model α β) (mode : Bool) : Model α β :=
  { m with tree := setExportMode m.tree mode }

/-- Context manager exporting(): set_export_mode(True); yield;
set_export_mode(False). The body is a state transformer on the model
returning an Except outcome and the model state it leaves. With a bare
yield (no try/finally), the trailing set_export_mode(False) runs only when
the body completes normally; a body exception propagates and skips it. -/
def exporting {γ : Type} (m : Model α β) (body : Model α β → Except String γ × Model α β) :
    Except String γ × Model α β :=
  let m1 := m.set_export_mode true
  match body m1 with
  | (Except.ok a, m2) => (Except.ok a, m2.set_export_mode false)
  | (Except.error e, m2) => (Except.error e, m2)

/-- Property save_name: self.__class__.__name__.lower(). -/
def save_name (m : Model α β) : String :=
  m.className.toLower

end Model

/-- Python truthiness resolution `x or dflt` for an optional string argument:
None and the empty string are falsy, any other string is itself. -/
def pyStrOr (x : Option String) (dflt : String) : String :=
  match x with
  | none => dflt
  | some s => if s = "" then dflt else s

/-- os.path.join for two POSIX path components, as used for
os.path.join(save_dir, name). -/
def osPathJoin (a b : String) : String :=
  if b.data.head? = some '/' then b
  else if a = "" then b
  else if a.data.getLast? = some '/' then a ++ b
  else a ++ "/" ++ b

/-- Arguments handed to the two external exporter calls inside export:
paddle.jit.to_static(self, input_spec=self.input_spec) and
paddle.jit.save(self, os.path.join(save_dir, name), input_spec=[self.input_spec]). -/
structure ExportCalls where
  toStaticSpec : List PyDict
  saveSpec : List (List PyDict)
  savePath : String
deriving DecidableEq, Repr

namespace Model

variable {α β : Type}

/-- export(save_dir, name=None): name = name or self.save_name; inside the
exporting() scope, trace with input_spec=self.input_spec and serialize to
os.path.join(save_dir, name) with input_spec=[self.input_spec]. The two
collaborator calls are pure in this embedding, so the scope body completes
normally; the result is the trace of both calls and the final model state. -/
def runExport (m : Model α β) (save_dir : String) (name : Option String) :
    Except String ExportCalls × Model α β :=
  let n := pyStrOr name m.save_name
  m.exporting (fun m1 =>
    (Except.ok { toStaticSpec := m1.input_spec
                 saveSpec := [m1.input_spec]
                 savePath := osPathJoin save_dir n : ExportCalls }, m1))

end Model

/-- Names of the members declared abstract on BaseDetectionModel via
abc.abstractproperty and abc.abstractmethod. -/
def abstractMembers : List String :=
  ["inputs", "sensor", "test_forward", "train_forward", "export_forward"]

/-- Python abc machinery at instantiation, embedded per its documented
behavior: BaseDetectionModel derives from abc.ABC, so calling a concrete
subclass raises TypeError at construction when any abstract member is left
unimplemented, and only a class implementing all of them produces an
instance. The argument lists the members the variant implements. -/
def instantiate (implemented : List String) : Except String Unit :=
  let missing := abstractMembers.filter (fun a => !decide (a ∈ implemented))
  if missing.isEmpty then Except.ok ()
  else Except.error ("TypeError: cannot instantiate abstract class, missing "
    ++ String.intercalate ", " missing)

/-!  Concrete models used to instantiate the universally quantified theorems
below on explicit inputs. -/

/-- Sample concrete model: class FooModel, camera sensor, one image input,
no velocity, evaluation mode, a single-node module tree with the export
flag initially false. -/
def mdl0 : Model Unit Unit :=
  { className := "FooModel"
    box_with_velocity := false
    training := false
    tree := Layer.node false LayerList.nil
    inputs := [{ name := "image", dtype := "float32", shape := [-1, 3, 224, 224] }]
    sensor := "camera"
    test_forward := fun _ => ()
    train_forward := fun _ => ()
    export_forward := fun _ => () }

/-- Variant of mdl0 in training mode with a different class name: same
box_with_velocity, so it must produce the same outputs. -/
def mdlTrain : Model Unit Unit :=
  { mdl0 with className := "BarModel", training := true }

/-- Concrete model with a nested module tree of three nodes carrying mixed
initial flags, and Nat-valued forward computations. -/
def mdl2 : Model Nat Nat :=
  { className := "LidarNet"
    box_with_velocity := true
    training := true
    tree := Layer.node false (LayerList.cons (Layer.node true LayerList.nil)
      (LayerList.cons (Layer.node false (LayerList.cons (Layer.node true LayerList.nil)
        LayerList.nil)) LayerList.nil))
    inputs := [{ name := "points", dtype := "float32", shape := [-1, 4] }]
    sensor := "lidar"
    test_forward := fun n => n + 1
    train_forward := fun n => n + 2
    export_forward := fun n => n + 3 }

/-- Concrete model whose inputs hold two entries sharing the name "x" with
different dtypes, plus a third entry named "y". -/
def mdlDup : Model Unit Unit :=
  { mdl0 with
    inputs := [{ name := "x", dtype := "float32", shape := [-1, 2] },
               { name := "x", dtype := "int32", shape := [-1, 5] },
               { name := "y", dtype := "float32", shape := [-1] }] }

/-!  Helper lemmas about the module tree. -/

mutual
/-- After setExportMode, the flag list of the tree is the old length worth of
copies of mode. -/
theorem flags_setExportMode (m : Layer) (mode : Bool) :
    flags (setExportMode m mode) = List.replicate (flags m).length mode :=
  match m with
  | Layer.node _ subs => by
      simp [setExportMode, flags, flagsList_setExportModeList subs mode, List.replicate_succ]
/-- List version of flags_setExportMode. -/
theorem flagsList_setExportModeList (ms : LayerList) (mode : Bool) :
    flagsList (setExportModeList ms mode) = List.replicate (flagsList ms).length mode :=
  match ms with
  | LayerList.nil => rfl
  | LayerList.cons m ms => by
      simp only [setExportModeList, flagsList, flags_setExportMode m mode,
        flagsList_setExportModeList ms mode, List.length_append, List.replicate_add]
end

/-- Every flag after setExportMode equals mode. -/
theorem mem_flags_setExportMode {m : Layer} {mode b : Bool}
    (h : b ∈ flags (setExportMode m mode)) : b = mode := by
  rw [flags_setExportMode] at h
  exact List.eq_of_mem_replicate h

/-- setExportMode does not change the number of nodes. -/
theorem length_flags_setExportMode (m : Layer) (mode : Bool) :
    (flags (setExportMode m mode)).length = (flags m).length := by
  rw [flags_setExportMode, List.length_replicate]

/-- The root flag after setExportMode is mode. -/
theorem rootFlag_setExportMode (m : Layer) (mode : Bool) :
    rootFlag (setExportMode m mode) = mode := by
  cases m with
  | node b subs => rfl

/-!  Helper lemmas about the Python dict built by input_spec. -/

/-- Lookup after insertion: the inserted key maps to the new value, other keys
are untouched. -/
theorem dlookup_dinsert (d : PyDict) (k n : String) (v : InputSpec) :
    dlookup n (dinsert d k v) = if k = n then some v else dlookup n d := by
  induction d with
  | nil => simp [dinsert, dlookup]
  | cons hd tl ih =>
    obtain ⟨k', v'⟩ := hd
    by_cases hk : k' = k
    · subst hk
      by_cases hn : k' = n
      · subst hn
        simp [dinsert, dlookup]
      · simp [dinsert, dlookup, hn]
    · by_cases hn : k' = n
      · subst hn
        have hkn : ¬ k = k' := fun h => hk h.symm
        simp [dinsert, dlookup, hk, hkn]
      · simp [dinsert, dlookup, hk, hn, ih]

/-- Keys of a cons cell. -/
theorem dkeys_cons (k : String) (v : InputSpec) (d : PyDict) :
    dkeys ((k, v) :: d) = k :: dkeys d := rfl

/-- Keys after insertion: unchanged when the key was present, appended
otherwise. -/
theorem dkeys_dinsert (d : PyDict) (k : String) (v : InputSpec) :
    dkeys (dinsert d k v) = if k ∈ dkeys d then dkeys d else dkeys d ++ [k] := by
  induction d with
  | nil => simp [dinsert, dkeys]
  | cons hd tl ih =>
    obtain ⟨k', v'⟩ := hd
    by_cases hk : k' = k
    · subst hk
      simp [dinsert, dkeys_cons, List.mem_cons]
    · have hne : ¬ k = k' := fun h => hk h.symm
      simp only [dinsert, if_neg hk, dkeys_cons, List.mem_cons, hne, false_or, ih]
      by_cases hm : k ∈ dkeys tl
      · rw [if_pos hm, if_pos hm]
      · rw [if_neg hm, if_neg hm, List.cons_append]

/-- Membership in the keys after insertion. -/
theorem mem_dkeys_dinsert (d : PyDict) (k n : String) (v : InputSpec) :
    n ∈ dkeys (dinsert d k v) ↔ n ∈ dkeys d ∨ n = k := by
  rw [dkeys_dinsert]
  by_cases hm : k ∈ dkeys d
  · simp only [if_pos hm]
    constructor
    · exact fun h => Or.inl h
    · rintro (h | rfl)
      · exact h
      · exact hm
  · simp [if_neg hm]

/-- Insertion keeps the keys duplicate-free. -/
theorem nodup_dkeys_dinsert {d : PyDict} (k : String) (v : InputSpec)
    (h : (dkeys d).Nodup) : (dkeys (dinsert d k v)).Nodup := by
  rw [dkeys_dinsert]
  by_cases hm : k ∈ dkeys d
  · simpa [if_pos hm]
  · simp [if_neg hm, List.nodup_append, h, hm]

/-- Inserting a fresh key appends the binding. -/
theorem dinsert_of_not_mem_dkeys {d : PyDict} {k : String} (v : InputSpec)
    (h : k ∉ dkeys d) : dinsert d k v = d ++ [(k, v)] := by
  induction d with
  | nil => rfl
  | cons hd tl ih =>
    obtain ⟨k', v'⟩ := hd
    simp only [dkeys, List.map_cons, List.mem_cons, not_or] at h
    have h1 : ¬ k' = k := fun hh => h.1 hh.symm
    have h2 : k ∉ dkeys tl := h.2
    simp [dinsert, h1, ih h2]

/-- inputSpecData over a snoc is one more dict insertion. -/
theorem inputSpecData_append_singleton (es : List TensorDesc) (e : TensorDesc) :
    inputSpecData (es ++ [e]) = dinsert (inputSpecData es) e.name (mkInputSpec e) := by
  simp [inputSpecData, List.foldl_append]

/-- lastInputNamed over a snoc. -/
theorem lastInputNamed_append_singleton (n : String) (es : List TensorDesc) (e : TensorDesc) :
    lastInputNamed n (es ++ [e]) = if e.name = n then some e else lastInputNamed n es := by
  simp [lastInputNamed, List.foldl_append]

/-- The dict built from inputs maps each name to the descriptor of the last
entry carrying that name. -/
theorem dlookup_inputSpecData (n : String) (es : List TensorDesc) :
    dlookup n (inputSpecData es) = (lastInputNamed n es).map mkInputSpec := by
  induction es using List.reverseRecOn with
  | nil => rfl
  | append_singleton es e ih =>
    rw [inputSpecData_append_singleton, dlookup_dinsert, lastInputNamed_append_singleton]
    by_cases h : e.name = n
    · simp [h]
    · simp [h, ih]

/-- The dict built from inputs has duplicate-free keys: one descriptor per
name. -/
theorem nodup_dkeys_inputSpecData (es : List TensorDesc) :
    (dkeys (inputSpecData es)).Nodup := by
  induction es using List.reverseRecOn with
  | nil => simp [inputSpecData, dkeys]
  | append_singleton es e ih =>
    rw [inputSpecData_append_singleton]
    exact nodup_dkeys_dinsert _ _ ih

/-- The keys of the dict are exactly the names occurring in inputs. -/
theorem mem_dkeys_inputSpecData (n : String) (es : List TensorDesc) :
    n ∈ dkeys (inputSpecData es) ↔ n ∈ es.map TensorDesc.name := by
  induction es using List.reverseRecOn with
  | nil => simp [inputSpecData, dkeys]
  | append_singleton es e ih =>
    rw [inputSpecData_append_singleton, mem_dkeys_dinsert]
    simp [ih]

/-- The dict has exactly one binding per distinct name in inputs. -/
theorem length_inputSpecData (es : List TensorDesc) :
    (inputSpecData es).length = (es.map TensorDesc.name).dedup.length := by
  have h1 : (inputSpecData es).length = (dkeys (inputSpecData es)).length := by
    simp [dkeys]
  have h2 : (dkeys (inputSpecData es)).toFinset.card = (dkeys (inputSpecData es)).length :=
    List.toFinset_card_of_nodup (nodup_dkeys_inputSpecData es)
  have h3 : (dkeys (inputSpecData es)).toFinset = (es.map TensorDesc.name).toFinset := by
    ext n
    simp only [List.mem_toFinset]
    exact mem_dkeys_inputSpecData n es
  rw [h1, ← h2, h3, List.card_toFinset]

/-- With pairwise distinct names, the dict lists one binding per entry, in
order, keyed by the entry name. -/
theorem inputSpecData_of_nodup (es : List TensorDesc)
    (h : (es.map TensorDesc.name).Nodup) :
    inputSpecData es = es.map (fun e => (e.name, mkInputSpec e)) := by
  induction es using List.reverseRecOn with
  | nil => rfl
  | append_singleton es e ih =>
    rw [List.map_append] at h
    have h1 : (es.map TensorDesc.name).Nodup := h.of_append_left
    have h2 : e.name ∉ es.map TensorDesc.name := by
      have hd := List.disjoint_of_nodup_append h
      intro hc
      exact hd hc (by simp)
    rw [inputSpecData_append_singleton, ih h1]
    have hfresh : e.name ∉ dkeys (es.map fun e => (e.name, mkInputSpec e)) := by
      simpa [dkeys, List.map_map, Function.comp] using h2
    rw [dinsert_of_not_mem_dkeys _ hfresh, List.map_append]
    rfl

/-!  Claim theorems. -/

/-- Claim C1: every call to forward executes exactly one of the three computation
paths, selected by the pair (in_export_mode, training): export mode first,
then the training flag, then test; the selection is total and the paths are
mutually exclusive, with export taking priority over training. -/
theorem forward_dispatch {α β : Type} (m : Model α β) (samples : α) (e t : Bool) :
    (m.forward samples =
      match forwardPath m.in_export_mode m.training with
      | FwdPath.exportPath => m.export_forward samples
      | FwdPath.trainPath => m.train_forward samples
      | FwdPath.testPath => m.test_forward samples) ∧
    (forwardPath e t = FwdPath.exportPath ↔ e = true) ∧
    (forwardPath e t = FwdPath.trainPath ↔ e = false ∧ t = true) ∧
    (forwardPath e t = FwdPath.testPath ↔ e = false ∧ t = false) := by
  refine ⟨?_, ?_, ?_, ?_⟩
  · unfold Model.forward forwardPath
    cases m.in_export_mode <;> cases m.training <;> simp
  · cases e <;> cases t <;> simp [forwardPath]
  · cases e <;> cases t <;> simp [forwardPath]
  · cases e <;> cases t <;> simp [forwardPath]

/-- Claim C2: outputs always returns exactly the three entries box3d, label and
confidence in this order, box3d of dtype float32 with shape [-1, 7] or
[-1, 9] as box_with_velocity dictates, label of int dtype with shape [-1],
confidence of float dtype with shape [-1]; the result depends on
box_with_velocity and on nothing else about the model. -/
theorem outputs_fixed {α β γ δ : Type} (m : Model α β) (m' : Model γ δ)
    (h : m.box_with_velocity = m'.box_with_velocity) :
    m.outputs =
      [{ name := "box3d", dtype := "float32",
         shape := [-1, if m.box_with_velocity then 9 else 7] },
       { name := "label", dtype := "int32", shape := [-1] },
       { name := "confidence", dtype := "float32", shape := [-1] }] ∧
    m.outputs = m'.outputs := by
  constructor
  · cases hb : m.box_with_velocity <;> simp [Model.outputs, hb]
  · simp [Model.outputs, h]

/-- Witness for outputs_fixed at the concrete models mdl0 and mdlTrain. -/
theorem outputs_fixed_witness :
    mdl0.box_with_velocity = mdlTrain.box_with_velocity ∧
    (mdl0.outputs =
      [{ name := "box3d", dtype := "float32",
         shape := [-1, if mdl0.box_with_velocity then 9 else 7] },
       { name := "label", dtype := "int32", shape := [-1] },
       { name := "confidence", dtype := "float32", shape := [-1] }] ∧
     mdl0.outputs = mdlTrain.outputs) :=
  ⟨rfl, outputs_fixed mdl0 mdlTrain rfl⟩

/-- Claim C4: after set_export_mode(mode), every node of the module tree, the model
itself included, carries in_export_mode = mode, for either boolean mode. -/
theorem set_export_mode_uniform {α β : Type} (m : Model α β) (mode : Bool) :
    (m.set_export_mode mode).in_export_mode = mode ∧
    ∀ b ∈ flags (m.set_export_mode mode).tree, b = mode := by
  constructor
  · unfold Model.set_export_mode Model.in_export_mode
    simp [rootFlag_setExportMode]
  · intro b hb
    exact mem_flags_setExportMode hb

/-- Witness for set_export_mode_uniform: the nested tree of mdl2, mode true,
checked at a concrete member of the flag list. -/
theorem set_export_mode_uniform_witness :
    true ∈ flags (mdl2.set_export_mode true).tree ∧ true = true :=
  ⟨by decide, (set_export_mode_uniform mdl2 true).2 true (by decide)⟩

/-- Claim C5: when the body of the exporting() scope completes normally, every node
of the module tree has in_export_mode = false after the scope exits. -/
theorem exporting_normal_resets {α β γ : Type} (m : Model α β)
    (body : Model α β → Except String γ × Model α β) (a : γ) (m2 : Model α β)
    (h : body (m.set_export_mode true) = (Except.ok a, m2)) :
    ∀ b ∈ flags ((m.exporting body).2).tree, b = false := by
  intro b hb
  simp only [Model.exporting, h] at hb
  exact mem_flags_setExportMode (by simpa [Model.set_export_mode] using hb)

/-- Witness for exporting_normal_resets: mdl2 with a body that succeeds
without touching the model. -/
theorem exporting_normal_resets_witness :
    (fun x : Model Nat Nat => ((Except.ok 7 : Except String Nat), x))
        (mdl2.set_export_mode true) = (Except.ok 7, mdl2.set_export_mode true) ∧
    false ∈ flags ((mdl2.exporting (fun x => (Except.ok 7, x))).2).tree ∧
    false = false :=
  ⟨rfl, by decide,
    exporting_normal_resets mdl2 (fun x => (Except.ok 7, x)) 7
      (mdl2.set_export_mode true) rfl false (by decide)⟩

/-- Counterexample for claim C3: the claim that an exception in the exporting() body
still resets in_export_mode to false fails on the single-node model mdl0
with a body that raises: after the scope exits the flag is still true, and
the exception propagates. -/
theorem exporting_exception_cex :
    ((mdl0.exporting (fun x => ((Except.error "boom" : Except String Nat), x))).2).in_export_mode
      = true ∧
    (mdl0.exporting (fun x => ((Except.error "boom" : Except String Nat), x))).1
      = Except.error "boom" :=
  ⟨rfl, rfl⟩

/-- Amended claim C3: when the body of exporting() raises, the exception propagates
and the scope returns the model state exactly as the body left it, skipping
the trailing reset; in particular a body that raises without touching the
flags leaves in_export_mode true on every node of the tree. The reset to
false happens only on normal completion. -/
theorem exporting_exception_behavior {α β γ : Type} (m : Model α β)
    (body : Model α β → Except String γ × Model α β) (e : String) (m2 : Model α β)
    (h : body (m.set_export_mode true) = (Except.error e, m2)) :
    m.exporting body = (Except.error e, m2) ∧
    ∀ b ∈ flags ((m.exporting
        (fun x => ((Except.error e : Except String γ), x))).2).tree, b = true := by
  constructor
  · simp only [Model.exporting, h]
  · intro b hb
    simp only [Model.exporting] at hb
    exact mem_flags_setExportMode (by simpa [Model.set_export_mode] using hb)

/-- Witness for exporting_exception_behavior: mdl2 with a body that raises
without touching the model. -/
theorem exporting_exception_behavior_witness :
    (fun x : Model Nat Nat => ((Except.error "boom" : Except String Nat), x))
        (mdl2.set_export_mode true) = (Except.error "boom", mdl2.set_export_mode true) ∧
    (mdl2.exporting (fun x => ((Except.error "boom" : Except String Nat), x)))
        = (Except.error "boom", mdl2.set_export_mode true) ∧
    true ∈ flags ((mdl2.exporting
        (fun x => ((Except.error "boom" : Except String Nat), x))).2).tree ∧
    true = true :=
  ⟨rfl,
    (exporting_exception_behavior mdl2 _ "boom" (mdl2.set_export_mode true) rfl).1,
    by decide,
    (exporting_exception_behavior mdl2
        (fun x => ((Except.error "boom" : Except String Nat), x)) "boom"
        (mdl2.set_export_mode true) rfl).2 true (by decide)⟩

/-- Claim C6: input_spec maps each entry of inputs to a descriptor built from the
entry fields, keyed by the entry name, and wraps the mapping in a
single-element sequence; it is pure. Stated for inputs with pairwise
distinct names, where the dict holds exactly one binding per entry in
order. -/
theorem input_spec_mapping {α β : Type} (m : Model α β)
    (h : (m.inputs.map TensorDesc.name).Nodup) :
    m.input_spec = [m.inputs.map (fun e => (e.name, mkInputSpec e))] := by
  unfold Model.input_spec
  rw [inputSpecData_of_nodup m.inputs h]

/-- Witness for input_spec_mapping: the example model mdl0 with the single
input image of dtype float32 and shape [-1, 3, 224, 224] yields exactly the
sequence holding the one-key mapping of the claim. -/
theorem input_spec_mapping_witness :
    (mdl0.inputs.map TensorDesc.name).Nodup ∧
    mdl0.input_spec =
      [[("image", { shape := [-1, 3, 224, 224], dtype := "float32",
                    name := some "image" })]] :=
  ⟨by decide, (input_spec_mapping mdl0 (by decide)).trans (by decide)⟩

/-- Counterexample for claim C7: the claim that export uses the explicit name whenever
one is given fails at name = some "": the empty string is an explicit
argument yet the resolved path uses save_name (here "foomodel"), not the
given empty name. -/
theorem export_name_resolution_cex :
    (mdl0.runExport "out" (some "")).1 =
      Except.ok { toStaticSpec := mdl0.input_spec, saveSpec := [mdl0.input_spec],
                  savePath := "out/foomodel" } ∧
    ("out/foomodel" : String) ≠ osPathJoin "out" "" := by
  have hlower : String.toLower "FooModel" = "foomodel" := by
    rw [String.toLower, String.map_eq]
    decide
  constructor
  · simp [Model.runExport, Model.exporting, Model.set_export_mode, Model.input_spec,
      Model.save_name, pyStrOr, mdl0, hlower, osPathJoin]
  · decide

/-- Amended claim C7: save_name is the lower-cased concrete class name, and export
resolves the base filename to the explicit name when it is given and
non-empty, falling back to save_name when the name is omitted (None) or is
the empty string, which Python or-resolution treats as absent; the
serializer is called on save_dir joined with the resolved name. -/
theorem export_name_resolution {α β : Type} (m : Model α β) (dir : String)
    (name : Option String) :
    m.save_name = m.className.toLower ∧
    (∀ s, name = some s → s ≠ "" → (m.runExport dir name).1 =
      Except.ok { toStaticSpec := m.input_spec, saveSpec := [m.input_spec],
                  savePath := osPathJoin dir s }) ∧
    ((name = none ∨ name = some "") → (m.runExport dir name).1 =
      Except.ok { toStaticSpec := m.input_spec, saveSpec := [m.input_spec],
                  savePath := osPathJoin dir m.save_name }) := by
  refine ⟨rfl, ?_, ?_⟩
  · rintro s rfl hs
    simp [Model.runExport, Model.exporting, Model.set_export_mode, Model.input_spec,
      pyStrOr, hs]
  · rintro (rfl | rfl)
    · simp [Model.runExport, Model.exporting, Model.set_export_mode, Model.input_spec,
        pyStrOr]
    · simp [Model.runExport, Model.exporting, Model.set_export_mode, Model.input_spec,
        pyStrOr]

/-- Witness for export_name_resolution: mdl0 exported with the explicit
non-empty name "mynet" and, separately, with no name. -/
theorem export_name_resolution_witness :
    mdl0.save_name = mdl0.className.toLower ∧
    (some "mynet" = some "mynet" ∧ ("mynet" : String) ≠ "" ∧
      (mdl0.runExport "out" (some "mynet")).1 =
        Except.ok { toStaticSpec := mdl0.input_spec, saveSpec := [mdl0.input_spec],
                    savePath := osPathJoin "out" "mynet" }) ∧
    ((none : Option String) = none ∧
      (mdl0.runExport "out" none).1 =
        Except.ok { toStaticSpec := mdl0.input_spec, saveSpec := [mdl0.input_spec],
                    savePath := osPathJoin "out" mdl0.save_name }) :=
  ⟨(export_name_resolution mdl0 "out" (some "mynet")).1,
   ⟨rfl, by decide,
     (export_name_resolution mdl0 "out" (some "mynet")).2.1 "mynet" rfl (by decide)⟩,
   ⟨rfl, (export_name_resolution mdl0 "out" none).2.2 (Or.inl rfl)⟩⟩

/-- Claim C8: a concrete variant leaving any of the five abstract members
unimplemented fails at instantiation with a TypeError, before any call can
happen; a variant implementing all of them instantiates successfully, so
incomplete variants are rejected at construction time. -/
theorem abstract_members_instantiation (implemented : List String) :
    ((∃ a ∈ abstractMembers, a ∉ implemented) →
      ∃ msg, instantiate implemented = Except.error msg) ∧
    ((∀ a ∈ abstractMembers, a ∈ implemented) →
      instantiate implemented = Except.ok ()) := by
  constructor
  · rintro ⟨a, ha, hna⟩
    have hmem : a ∈ abstractMembers.filter (fun a => !decide (a ∈ implemented)) := by
      rw [List.mem_filter]
      exact ⟨ha, by simpa using hna⟩
    rcases hfe : abstractMembers.filter (fun a => !decide (a ∈ implemented)) with _ | ⟨b, rest⟩
    · rw [hfe] at hmem
      cases hmem
    · exact ⟨"TypeError: cannot instantiate abstract class, missing "
          ++ String.intercalate ", " (b :: rest), by simp [instantiate, hfe]⟩
  · intro hall
    have hnil : abstractMembers.filter (fun a => !decide (a ∈ implemented)) = [] := by
      rw [List.filter_eq_nil_iff]
      intro a ha
      simp [hall a ha]
    simp [instantiate, hnil]

/-- Witness for abstract_members_instantiation: a variant implementing only
inputs and sensor is rejected; one implementing all five is accepted. -/
theorem abstract_members_instantiation_witness :
    (∃ a ∈ abstractMembers, a ∉ (["inputs", "sensor"] : List String)) ∧
    (∃ msg, instantiate ["inputs", "sensor"] = Except.error msg) ∧
    (∀ a ∈ abstractMembers,
      a ∈ (["inputs", "sensor", "test_forward", "train_forward",
            "export_forward"] : List String)) ∧
    instantiate ["inputs", "sensor", "test_forward", "train_forward",
      "export_forward"] = Except.ok () :=
  ⟨by decide,
   (abstract_members_instantiation ["inputs", "sensor"]).1 (by decide),
   by decide,
   (abstract_members_instantiation ["inputs", "sensor", "test_forward",
     "train_forward", "export_forward"]).2 (by decide)⟩

/-- Claim C9: within one export, the tracer receives input_spec, a one-element
sequence of the name-keyed mapping, while the serializer receives
[input_spec], the same specification wrapped in one further singleton: the
two collaborator calls get differently nested arguments. -/
theorem export_spec_nesting {α β : Type} (m : Model α β) (dir : String)
    (name : Option String) :
    ∃ c : ExportCalls, (m.runExport dir name).1 = Except.ok c ∧
      c.toStaticSpec = m.input_spec ∧
      c.saveSpec = [m.input_spec] ∧
      c.saveSpec = [c.toStaticSpec] ∧
      c.toStaticSpec.length = 1 ∧
      c.saveSpec.length = 1 := by
  refine ⟨{ toStaticSpec := m.input_spec, saveSpec := [m.input_spec],
            savePath := osPathJoin dir (pyStrOr name m.save_name) },
    ?_, rfl, rfl, rfl, rfl, rfl⟩
  simp [Model.runExport, Model.exporting, Model.set_export_mode, Model.input_spec]

/-- Claim C10: when inputs holds two or more entries sharing a name, the dict built
by input_spec keeps exactly one descriptor per name, the one from the last
entry carrying it, so it has strictly fewer bindings than inputs has
entries; no error is raised and the single-element wrapping is still
produced. -/
theorem input_spec_duplicate_names {α β : Type} (m : Model α β)
    (h : ¬ (m.inputs.map TensorDesc.name).Nodup) :
    (inputSpecData m.inputs).length < m.inputs.length ∧
    (∀ n, dlookup n (inputSpecData m.inputs)
      = (lastInputNamed n m.inputs).map mkInputSpec) ∧
    m.input_spec = [inputSpecData m.inputs] := by
  refine ⟨?_, fun n => dlookup_inputSpecData n m.inputs, rfl⟩
  have hsub := List.dedup_sublist (m.inputs.map TensorDesc.name)
  have hne : (m.inputs.map TensorDesc.name).dedup.length
      ≠ (m.inputs.map TensorDesc.name).length := by
    intro heq
    exact h (List.dedup_eq_self.mp (hsub.eq_of_length heq))
  have hlt := lt_of_le_of_ne hsub.length_le hne
  calc (inputSpecData m.inputs).length
      = (m.inputs.map TensorDesc.name).dedup.length := length_inputSpecData m.inputs
    _ < (m.inputs.map TensorDesc.name).length := hlt
    _ = m.inputs.length := by simp

/-- Witness for input_spec_duplicate_names: mdlDup has two entries named "x"
among three entries; the dict has fewer bindings and "x" maps to the
descriptor of the later entry. -/
theorem input_spec_duplicate_names_witness :
    ¬ (mdlDup.inputs.map TensorDesc.name).Nodup ∧
    (inputSpecData mdlDup.inputs).length < mdlDup.inputs.length ∧
    dlookup "x" (inputSpecData mdlDup.inputs)
      = (lastInputNamed "x" mdlDup.inputs).map mkInputSpec :=
  ⟨by decide,
   (input_spec_duplicate_names mdlDup (by decide)).1,
   (input_spec_duplicate_names mdlDup (by decide)).2.1 "x"⟩
